import Mathlib

/-!
Verification of the pixie dynamic-tracing compiler subsystem.

The repository slice under verification contains the dynamic tracer's test
fixture (`src/stirling/dynamic_tracing/dynamic_tracer_test.cc`) and the
fixed-size transport record header (`src/stirling/bcc_bpf_interface/go_grpc_types.h`).
The compiler itself (`CompileProgram` and its helper stages) is not part of the
slice; following the specification, those stages are modelled here from the
spec's words, with the test fixture serving as the authority for all concrete
values it pins down (probe counts, field names, field order, scalar types, and
the auxiliary probe function identifier `probe_entry_runtime_casgstatus`).
-/

namespace DynamicTracing

/-- Scalar types appearing in event channel schemas. The set is taken from the
test fixture's expected output proto (INT32, UINT64, INT64, INT). -/
inductive ScalarType where
  | INT32
  | UINT64
  | INT64
  | INT
  deriving DecidableEq, Repr

/-- Target-language tag of a logical program. The spec's external interface
declares the enum as NATIVE vs MANAGED_RUNTIME; the test fixture spells the
managed-runtime tag GOLANG. -/
inductive Language where
  | NATIVE
  | MANAGED_RUNTIME
  deriving DecidableEq, Repr

/-- Semantic kind of a tracepoint reference (the spec declares a single kind,
a LOGICAL function boundary). -/
inductive TracepointKind where
  | LOGICAL
  deriving DecidableEq, Repr

/-- A tracepoint reference: symbol name plus semantic kind. -/
structure Tracepoint where
  symbol : String
  kind : TracepointKind
  deriving DecidableEq, Repr

/-- An argument or return-value binding: id bound to a source expression. -/
structure Binding where
  id : String
  expr : String
  deriving DecidableEq, Repr

/-- The optional function-latency binding of a logical probe. -/
structure LatencyBinding where
  id : String
  deriving DecidableEq, Repr

/-- An output action: binds a named output to an ordered list of variable ids. -/
structure OutputAction where
  output_name : String
  variable_ids : List String
  deriving DecidableEq, Repr

/-- A named output schema: name plus ordered field names (no types yet). -/
structure Output where
  name : String
  field_names : List String
  deriving DecidableEq, Repr

/-- A logical probe: name, tracepoint, argument bindings, return-value
bindings, optional latency binding, and output actions. -/
structure LogicalProbe where
  name : String
  tracepoint : Tracepoint
  arg_bindings : List Binding
  ret_bindings : List Binding
  latency_binding : Option LatencyBinding
  output_actions : List OutputAction
  deriving DecidableEq, Repr

/-- A logical program: language tag, declared outputs, and probes. -/
structure LogicalProgram where
  language : Language
  outputs : List Output
  probes : List LogicalProbe
  deriving DecidableEq, Repr

/-- The compilation unit: target binary path plus logical programs. -/
structure LogicalTracepointDeployment where
  binary_path : String
  programs : List LogicalProgram
  deriving DecidableEq, Repr

/-- Attach point of a physical probe. -/
inductive AttachPoint where
  | ENTRY
  | RETURN
  deriving DecidableEq, Repr

/-- A physical probe specification: binary path, resolved symbol, attach
point, and synthesized probe-function identifier. -/
structure PhysicalProbeSpec where
  binary_path : String
  symbol : String
  attach_point : AttachPoint
  probe_fn_id : String
  deriving DecidableEq, Repr

/-- A typed field of an event channel schema. -/
structure Field where
  name : String
  type : ScalarType
  deriving DecidableEq, Repr

/-- An event channel specification: channel name plus ordered field list. -/
structure EventChannelSpec where
  name : String
  fields : List Field
  deriving DecidableEq, Repr

/-- The compiled artifact: ordered probe specs plus ordered channel specs. -/
structure BCCProgram where
  probe_specs : List PhysicalProbeSpec
  channel_specs : List EventChannelSpec
  deriving DecidableEq, Repr

/-- The error taxonomy of the spec. -/
inductive CompileError where
  | SymbolNotFoundError
  | UnsupportedBinaryFormatError
  | UnknownVariableError
  | InvalidContextError
  | UnsupportedLanguageError
  | DuplicateFieldError
  | UndeclaredOutputError
  deriving DecidableEq, Repr

/-- Modelled from the spec: the Symbol Resolver's result for one symbol
(the resolver itself is an external collaborator, specified only at its
interface: ordered argument layout and return-value layout). Argument
locations are elided; each argument carries its name and scalar type, and
each return slot carries its index and scalar type. -/
structure SymbolLayout where
  args : List (String × ScalarType)
  rets : List (Nat × ScalarType)
  deriving DecidableEq, Repr

/-- Modelled from the spec: the Symbol Resolver interface `symbol -> layout`,
as a finite table for one target binary. -/
def SymbolTable : Type := List (String × SymbolLayout)

/-- Kind of a resolved variable: argument, return value, or derived timing. -/
inductive VarKind where
  | argKind
  | retKind
  | latencyKind
  deriving DecidableEq, Repr

/-- The result of expression evaluation: the binding id it realizes, its value
kind, and its concrete scalar type (the source-location descriptor is elided). -/
structure ResolvedVariable where
  id : String
  kind : VarKind
  type : ScalarType
  deriving DecidableEq, Repr

/-- Probe phase at which an expression is evaluated. -/
inductive ProbePhase where
  | entryPhase
  | exitPhase
  deriving DecidableEq, Repr

/-- Modelled from the spec: the closed expression AST of the design notes —
a bare identifier naming a formal argument, or the reserved return-slot
placeholder. (The latency pseudo-variable arrives through the separate
latency binding, not through an expression.) -/
inductive TraceExpr where
  | ident (x : String)
  | retSlot (n : Nat)
  deriving DecidableEq, Repr

/-- Decimal digit accumulator used by the expression parser. -/
def digitsToNat : List Char → Nat → Nat
  | [], acc => acc
  | c :: cs, acc => digitsToNat cs (acc * 10 + (c.toNat - 48))

/-- Modelled from the spec: the small expression parser. A leading dollar sign
marks the return-slot placeholder (the test fixture uses the expression
written as a dollar sign followed by 6); anything else is an identifier. -/
def parseExpr (e : String) : TraceExpr :=
  match e.data with
  | '$' :: rest => .retSlot (digitsToNat rest 0)
  | _ => .ident e

/-- Modelled from the spec: the Expression Evaluator. An identifier resolves
against the enclosing probe's argument layout; the return-slot placeholder
resolves only in exit-probe context and fails with InvalidContextError at
entry; unknown identifiers and unknown return slots fail with
UnknownVariableError. -/
def evalExpr (id : String) (layout : SymbolLayout) (phase : ProbePhase)
    (e : String) : Except CompileError ResolvedVariable :=
  match parseExpr e with
  | .ident x =>
    match layout.args.lookup x with
    | some t => .ok ⟨id, .argKind, t⟩
    | none => .error .UnknownVariableError
  | .retSlot n =>
    match phase with
    | .entryPhase => .error .InvalidContextError
    | .exitPhase =>
      match layout.rets.lookup n with
      | some t => .ok ⟨id, .retKind, t⟩
      | none => .error .UnknownVariableError

/-- Modelled from the spec: evaluate a list of bindings at one probe phase,
in declaration order, stopping at the first error. -/
def evalBindings (layout : SymbolLayout) (phase : ProbePhase) :
    List Binding → Except CompileError (List ResolvedVariable)
  | [] => .ok []
  | b :: rest =>
    match evalExpr b.id layout phase b.expr with
    | .error e => .error e
    | .ok v =>
      match evalBindings layout phase rest with
      | .error e => .error e
      | .ok vs => .ok (v :: vs)

/-- Modelled from the spec: resolve all of one probe's bindings — argument
bindings at entry, return-value bindings at exit, then the latency binding,
which carries the INT64 timing type pinned by the test fixture. -/
def resolveProbeVars (layout : SymbolLayout) (p : LogicalProbe) :
    Except CompileError (List ResolvedVariable) :=
  match evalBindings layout .entryPhase p.arg_bindings with
  | .error e => .error e
  | .ok argVars =>
    match evalBindings layout .exitPhase p.ret_bindings with
    | .error e => .error e
    | .ok retVars =>
      let latVars : List ResolvedVariable :=
        match p.latency_binding with
        | some lb => [⟨lb.id, .latencyKind, .INT64⟩]
        | none => []
      .ok (argVars ++ retVars ++ latVars)

/-- The word a probe-function identifier uses for an attach point. -/
def attachWord : AttachPoint → String
  | .ENTRY => "entry"
  | .RETURN => "return"

/-- Symbol mangling for probe-function identifiers: dots become underscores
(the test fixture pins probe_entry_runtime_casgstatus for runtime.casgstatus). -/
def mangleSymbol (s : String) : String :=
  String.mk (s.data.map (fun c => if c == '.' then '_' else c))

/-- Modelled from the spec: probe-function identifiers are generated
deterministically from the probe's attach point and symbol. The concrete
format is pinned by the test fixture's probe_entry_runtime_casgstatus. -/
def probeFnName (a : AttachPoint) (sym : String) : String :=
  "probe_" ++ attachWord a ++ "_" ++ mangleSymbol sym

/-- Whether a probe needs a return-attach physical probe: it has at least one
return-value binding or a latency binding. -/
def needsReturnProbe (p : LogicalProbe) : Bool :=
  !p.ret_bindings.isEmpty || p.latency_binding.isSome

/-- Modelled from the spec: the physical probes realizing one logical probe —
always an entry probe at the target symbol, plus a return probe exactly when
a return-value or latency binding exists. -/
def probeSpecsFor (binPath : String) (p : LogicalProbe) : List PhysicalProbeSpec :=
  let sym := p.tracepoint.symbol
  let entrySpec : PhysicalProbeSpec := ⟨binPath, sym, .ENTRY, probeFnName .ENTRY sym⟩
  if needsReturnProbe p then
    [entrySpec, ⟨binPath, sym, .RETURN, probeFnName .RETURN sym⟩]
  else
    [entrySpec]

/-- Modelled from the spec: the fixed auxiliary context-tracking probe set for
managed-runtime programs. The test fixture pins the first member (an entry
probe at runtime.casgstatus, the runtime's state-transition function, with
probe function probe_entry_runtime_casgstatus) and pins the set's size at two;
the second member's symbol is not named by the spec or the fixture, so a fixed
runtime-internal symbol stands in for it. Claims depend only on the set's
size, its first member, and its once-per-program deduplication. -/
def goAuxProbes (binPath : String) : List PhysicalProbeSpec :=
  [⟨binPath, "runtime.casgstatus", .ENTRY, probeFnName .ENTRY "runtime.casgstatus"⟩,
   ⟨binPath, "runtime.newproc1", .ENTRY, probeFnName .ENTRY "runtime.newproc1"⟩]

/-- Modelled from the spec: the implicit context fields prepended to every
event channel — process identity, process-start timestamp, capture timestamp,
and, only for managed-runtime programs, the logical thread-of-execution
identifier. Names and scalar types are pinned by the test fixture. -/
def implicitFields : Language → List Field
  | .NATIVE => [⟨"tgid_", .INT32⟩, ⟨"tgid_start_time_", .UINT64⟩, ⟨"time_", .UINT64⟩]
  | .MANAGED_RUNTIME =>
    [⟨"tgid_", .INT32⟩, ⟨"tgid_start_time_", .UINT64⟩, ⟨"time_", .UINT64⟩,
     ⟨"goid_", .INT64⟩]

/-- Modelled from the spec: pair the output's declared field names with the
output action's variable ids positionally, and give each field the scalar
type recorded on the corresponding resolved variable. -/
def resolveFieldTypes (vars : List ResolvedVariable) :
    List (String × String) → Except CompileError (List (String × ScalarType))
  | [] => .ok []
  | (fname, vid) :: rest =>
    match vars.find? (fun v => v.id == vid) with
    | none => .error .UnknownVariableError
    | some v =>
      match resolveFieldTypes vars rest with
      | .error e => .error e
      | .ok ps => .ok ((fname, v.type) :: ps)

/-- Modelled from the spec: append explicit fields to a channel's field list,
failing with DuplicateFieldError when an explicit field name collides with a
field already present (implicit or explicit). -/
def appendExplicitFields (fs : List Field) :
    List (String × ScalarType) → Except CompileError (List Field)
  | [] => .ok fs
  | (n, t) :: rest =>
    if fs.any (fun f => f.name == n) then .error .DuplicateFieldError
    else appendExplicitFields (fs ++ [⟨n, t⟩]) rest

/-- Modelled from the spec: the Output Schema Builder for one output action —
look the referenced output up (UndeclaredOutputError when absent), start from
the implicit context fields of the program's language, and append the
explicit fields in declaration order. -/
def buildChannelForAction (lang : Language) (outputs : List Output)
    (vars : List ResolvedVariable) (a : OutputAction) :
    Except CompileError EventChannelSpec :=
  match outputs.find? (fun o => o.name == a.output_name) with
  | none => .error .UndeclaredOutputError
  | some out =>
    match resolveFieldTypes vars (out.field_names.zip a.variable_ids) with
    | .error e => .error e
    | .ok pairs =>
      match appendExplicitFields (implicitFields lang) pairs with
      | .error e => .error e
      | .ok fs => .ok ⟨a.output_name, fs⟩

/-- Modelled from the spec: build the channels of one probe's output actions,
in declaration order. -/
def buildChannels (lang : Language) (outputs : List Output)
    (vars : List ResolvedVariable) :
    List OutputAction → Except CompileError (List EventChannelSpec)
  | [] => .ok []
  | a :: rest =>
    match buildChannelForAction lang outputs vars a with
    | .error e => .error e
    | .ok c =>
      match buildChannels lang outputs vars rest with
      | .error e => .error e
      | .ok cs => .ok (c :: cs)

/-- Modelled from the spec: compile one logical probe — resolve its target
symbol (SymbolNotFoundError when absent), resolve its bindings, build its
channels, and synthesize its physical probes. -/
def compileProbe (tbl : SymbolTable) (binPath : String) (lang : Language)
    (outputs : List Output) (p : LogicalProbe) :
    Except CompileError (List PhysicalProbeSpec × List EventChannelSpec) :=
  match tbl.lookup p.tracepoint.symbol with
  | none => .error .SymbolNotFoundError
  | some layout =>
    match resolveProbeVars layout p with
    | .error e => .error e
    | .ok vars =>
      match buildChannels lang outputs vars p.output_actions with
      | .error e => .error e
      | .ok chans => .ok (probeSpecsFor binPath p, chans)

/-- Modelled from the spec: compile a program's probes in declaration order,
concatenating their probe specs and channel specs. -/
def compileProbes (tbl : SymbolTable) (binPath : String) (lang : Language)
    (outputs : List Output) :
    List LogicalProbe → Except CompileError (List PhysicalProbeSpec × List EventChannelSpec)
  | [] => .ok ([], [])
  | p :: rest =>
    match compileProbe tbl binPath lang outputs p with
    | .error e => .error e
    | .ok (specs, chans) =>
      match compileProbes tbl binPath lang outputs rest with
      | .error e => .error e
      | .ok (specs2, chans2) => .ok (specs ++ specs2, chans ++ chans2)

/-- Modelled from the spec: compile one logical program. -/
def compileOneProgram (tbl : SymbolTable) (binPath : String)
    (prog : LogicalProgram) :
    Except CompileError (List PhysicalProbeSpec × List EventChannelSpec) :=
  compileProbes tbl binPath prog.language prog.outputs prog.probes

/-- Modelled from the spec: compile the deployment's programs in declaration
order, concatenating their results. -/
def compilePrograms (tbl : SymbolTable) (binPath : String) :
    List LogicalProgram → Except CompileError (List PhysicalProbeSpec × List EventChannelSpec)
  | [] => .ok ([], [])
  | prog :: rest =>
    match compileOneProgram tbl binPath prog with
    | .error e => .error e
    | .ok (specs, chans) =>
      match compilePrograms tbl binPath rest with
      | .error e => .error e
      | .ok (specs2, chans2) => .ok (specs ++ specs2, chans ++ chans2)

/-- Whether any program of the deployment targets a managed runtime. -/
def isManaged (d : LogicalTracepointDeployment) : Bool :=
  d.programs.any (fun prog => prog.language == .MANAGED_RUNTIME)

/-- Modelled from the spec: the whole compiler, CompileProgram. Programs are
compiled in declaration order; when any program targets a managed runtime the
fixed auxiliary context-tracking probe set is included exactly once per
compiled program (deduplicated), ahead of the per-probe specs, matching the
test fixture's expectation that the first assembled spec is the
runtime.casgstatus entry probe. -/
def CompileProgram (tbl : SymbolTable) (d : LogicalTracepointDeployment) :
    Except CompileError BCCProgram :=
  match compilePrograms tbl d.binary_path d.programs with
  | .error e => .error e
  | .ok (specs, chans) =>
    let aux := if isManaged d then goAuxProbes d.binary_path else []
    .ok ⟨aux ++ specs, chans⟩

/-- Whether appending the explicit fields onto an existing field list would
hit a name collision (with an already-present field, implicit or explicit). -/
def hasFieldCollision (fs : List Field) : List (String × ScalarType) → Bool
  | [] => false
  | (n, t) :: rest =>
    fs.any (fun f => f.name == n) || hasFieldCollision (fs ++ [⟨n, t⟩]) rest

/-- The target binary of the test fixture. -/
def dummyBinaryPath : String := "dummy_go_binary"

/-- Modelled from the spec: the symbol layout the test binary's debug info
yields for main.MixedArgTypes — arguments i1, i2, i3 of type INT and a
return slot 6 of type INT (the fixture's expected channel gives f1..f4 the
scalar type INT). -/
def mixedArgTypesLayout : SymbolLayout :=
  ⟨[("i1", .INT), ("i2", .INT), ("i3", .INT)], [(6, .INT)]⟩

/-- The symbol table of the test binary. -/
def dummySymbolTable : SymbolTable :=
  [("main.MixedArgTypes", mixedArgTypesLayout)]

/-- The declared output of the test fixture. -/
def probeOutputDecl : Output :=
  ⟨"probe_output", ["f1", "f2", "f3", "f4", "latency"]⟩

/-- The output action of the test fixture's probe. -/
def probe0Action : OutputAction :=
  ⟨"probe_output", ["arg0", "arg1", "arg2", "retval0", "latency"]⟩

/-- The test fixture's logical probe: three argument bindings, one
return-value binding on slot 6, a latency binding, and one output action. -/
def probe0 : LogicalProbe :=
  ⟨"probe0", ⟨"main.MixedArgTypes", .LOGICAL⟩,
   [⟨"arg0", "i1"⟩, ⟨"arg1", "i2"⟩, ⟨"arg2", "i3"⟩],
   [⟨"retval0", "$6"⟩],
   some ⟨"latency"⟩,
   [probe0Action]⟩

/-- The test fixture's logical program (language GOLANG, a managed runtime). -/
def testProgram : LogicalProgram :=
  ⟨.MANAGED_RUNTIME, [probeOutputDecl], [probe0]⟩

/-- The test fixture's deployment. -/
def testDeployment : LogicalTracepointDeployment :=
  ⟨dummyBinaryPath, [testProgram]⟩

/-- The expected channel field list of the test fixture, in order. -/
def expectedChannelFields : List Field :=
  [⟨"tgid_", .INT32⟩, ⟨"tgid_start_time_", .UINT64⟩, ⟨"time_", .UINT64⟩,
   ⟨"goid_", .INT64⟩, ⟨"f1", .INT⟩, ⟨"f2", .INT⟩, ⟨"f3", .INT⟩,
   ⟨"f4", .INT⟩, ⟨"latency", .INT64⟩]

/-- The expected compiled artifact for the test fixture. -/
def expectedBCC : BCCProgram :=
  ⟨[⟨dummyBinaryPath, "runtime.casgstatus", .ENTRY, "probe_entry_runtime_casgstatus"⟩,
    ⟨dummyBinaryPath, "runtime.newproc1", .ENTRY, "probe_entry_runtime_newproc1"⟩,
    ⟨dummyBinaryPath, "main.MixedArgTypes", .ENTRY, "probe_entry_main_MixedArgTypes"⟩,
    ⟨dummyBinaryPath, "main.MixedArgTypes", .RETURN, "probe_return_main_MixedArgTypes"⟩],
   [⟨"probe_output", expectedChannelFields⟩]⟩

/-- A probe whose first argument binding evaluates the return-slot
placeholder at entry (an entry-only binding), used to exercise the
InvalidContextError path. -/
def entryRetProbe : LogicalProbe :=
  ⟨"p", ⟨"main.MixedArgTypes", .LOGICAL⟩, [⟨"a0", "$6"⟩], [], none, []⟩

/-- A program holding entryRetProbe. -/
def entryRetProgram : LogicalProgram :=
  ⟨.MANAGED_RUNTIME, [], [entryRetProbe]⟩

/-- A deployment holding entryRetProgram. -/
def entryRetDeployment : LogicalTracepointDeployment :=
  ⟨"dummy_go_binary", [entryRetProgram]⟩

/-- A probe whose output action references an output name that no Output
declares, used to exercise the UndeclaredOutputError path. -/
def undeclaredProbe : LogicalProbe :=
  ⟨"p", ⟨"main.MixedArgTypes", .LOGICAL⟩, [], [], none, [⟨"nope", []⟩]⟩

/-- A program holding undeclaredProbe and declaring no outputs. -/
def undeclaredProgram : LogicalProgram :=
  ⟨.MANAGED_RUNTIME, [], [undeclaredProbe]⟩

/-- A deployment holding undeclaredProgram. -/
def undeclaredDeployment : LogicalTracepointDeployment :=
  ⟨"dummy_go_binary", [undeclaredProgram]⟩

/-- An output whose declared field name collides with the implicit context
field tgid_, used to exercise the DuplicateFieldError path. -/
def duplicateOutputDecl : Output := ⟨"dup_output", ["tgid_"]⟩

/-- A probe writing one argument into duplicateOutputDecl. -/
def duplicateProbe : LogicalProbe :=
  ⟨"p", ⟨"main.MixedArgTypes", .LOGICAL⟩, [⟨"arg0", "i1"⟩], [], none,
   [⟨"dup_output", ["arg0"]⟩]⟩

/-- A program holding duplicateProbe. -/
def duplicateProgram : LogicalProgram :=
  ⟨.MANAGED_RUNTIME, [duplicateOutputDecl], [duplicateProbe]⟩

/-- A deployment holding duplicateProgram. -/
def duplicateDeployment : LogicalTracepointDeployment :=
  ⟨"dummy_go_binary", [duplicateProgram]⟩

/-- The physical probe specs the fixture probe expands to. -/
def probe0Specs : List PhysicalProbeSpec :=
  [⟨"dummy_go_binary", "main.MixedArgTypes", .ENTRY, "probe_entry_main_MixedArgTypes"⟩,
   ⟨"dummy_go_binary", "main.MixedArgTypes", .RETURN, "probe_return_main_MixedArgTypes"⟩]

/-- The event channel the fixture probe's output action builds. -/
def probe0Channel : EventChannelSpec :=
  ⟨"probe_output", expectedChannelFields⟩

/-- The resolved variables of the fixture probe: the three INT arguments, the
INT return slot, and the INT64 latency. -/
def probe0Vars : List ResolvedVariable :=
  [⟨"arg0", .argKind, .INT⟩, ⟨"arg1", .argKind, .INT⟩, ⟨"arg2", .argKind, .INT⟩,
   ⟨"retval0", .retKind, .INT⟩, ⟨"latency", .latencyKind, .INT64⟩]

/-- The fixed-size transport record constant HEADER_FIELD_STR_SIZE of
go_grpc_types.h. -/
def HEADER_FIELD_STR_SIZE : Nat := 128

/-- The fixed-size transport record constant MAX_DATA_SIZE of
go_grpc_types.h. -/
def MAX_DATA_SIZE : Nat := 16384

/-- Sanity check: the modelled compiler reproduces the test fixture exactly. -/
theorem compile_testDeployment :
    CompileProgram dummySymbolTable testDeployment = .ok expectedBCC := by
  rfl

/-- Appending explicit fields, when it succeeds, appends exactly the given
name-type pairs after the existing fields, in order. -/
theorem appendExplicitFields_ok (pairs : List (String × ScalarType)) :
    ∀ fs r, appendExplicitFields fs pairs = .ok r →
      r = fs ++ pairs.map (fun q => Field.mk q.1 q.2) := by
  induction pairs with
  | nil =>
    intro fs r h
    simp only [appendExplicitFields, Except.ok.injEq] at h
    simp [h]
  | cons q rest ih =>
    intro fs r h
    obtain ⟨n, t⟩ := q
    simp only [appendExplicitFields] at h
    split at h
    · exact absurd h (by simp)
    · have hr := ih (fs ++ [⟨n, t⟩]) r h
      simp [hr]

/-- A field-name collision makes the append fail with DuplicateFieldError. -/
theorem hasFieldCollision_error (pairs : List (String × ScalarType)) :
    ∀ fs, hasFieldCollision fs pairs = true →
      appendExplicitFields fs pairs = .error .DuplicateFieldError := by
  induction pairs with
  | nil => intro fs h; simp [hasFieldCollision] at h
  | cons q rest ih =>
    intro fs h
    obtain ⟨n, t⟩ := q
    simp only [hasFieldCollision, Bool.or_eq_true] at h
    simp only [appendExplicitFields]
    rcases h with h | h
    · simp [h]
    · cases hany : fs.any (fun f => f.name == n) with
      | true => simp
      | false => simpa using ih (fs ++ [⟨n, t⟩]) h

/-- Characterization of successful explicit-field type resolution: the result
pairs each declared field name positionally with the scalar type of the
resolved variable named by the corresponding variable id. -/
theorem resolveFieldTypes_ok (vars : List ResolvedVariable)
    (l : List (String × String)) :
    ∀ r, resolveFieldTypes vars l = .ok r →
      r.length = l.length ∧
      ∀ i fn vid, l.get? i = some (fn, vid) →
        ∃ v, vars.find? (fun w => w.id == vid) = some v ∧
          r.get? i = some (fn, v.type) := by
  induction l with
  | nil =>
    intro r h
    simp only [resolveFieldTypes, Except.ok.injEq] at h
    subst h
    refine ⟨rfl, ?_⟩
    intro i fn vid hget
    simp at hget
  | cons q rest ih =>
    intro r h
    obtain ⟨fn0, vid0⟩ := q
    simp only [resolveFieldTypes] at h
    split at h
    · exact absurd h (by simp)
    · rename_i v hfind
      split at h
      · exact absurd h (by simp)
      · rename_i ps hrest
        simp only [Except.ok.injEq] at h
        subst h
        obtain ⟨hlen, hpt⟩ := ih ps hrest
        refine ⟨by simp [hlen], ?_⟩
        intro i fn vid hget
        cases i with
        | zero =>
          simp only [List.get?_cons_zero, Option.some.injEq, Prod.mk.injEq] at hget
          obtain ⟨hfn, hvid⟩ := hget
          subst hfn; subst hvid
          exact ⟨v, hfind, by simp⟩
        | succ j =>
          simp only [List.get?_cons_succ] at hget
          obtain ⟨v2, hv2, hr2⟩ := hpt j fn vid hget
          exact ⟨v2, hv2, by simpa using hr2⟩

/-- Decomposition of a successful channel build for one output action. -/
theorem buildChannelForAction_ok (lang : Language) (outputs : List Output)
    (vars : List ResolvedVariable) (a : OutputAction) (ch : EventChannelSpec)
    (h : buildChannelForAction lang outputs vars a = .ok ch) :
    ∃ out pairs,
      outputs.find? (fun o => o.name == a.output_name) = some out ∧
      resolveFieldTypes vars (out.field_names.zip a.variable_ids) = .ok pairs ∧
      ch.name = a.output_name ∧
      ch.fields = implicitFields lang ++ pairs.map (fun q => Field.mk q.1 q.2) := by
  unfold buildChannelForAction at h
  split at h
  · exact absurd h (by simp)
  · rename_i out hfind
    split at h
    · exact absurd h (by simp)
    · rename_i pairs hpairs
      split at h
      · exact absurd h (by simp)
      · rename_i fs hfs
        simp only [Except.ok.injEq] at h
        subst h
        exact ⟨out, pairs, hfind, hpairs, rfl,
          appendExplicitFields_ok pairs (implicitFields lang) fs hfs⟩

/-- Every channel of a successful multi-action build comes from one action. -/
theorem buildChannels_mem (lang : Language) (outputs : List Output)
    (vars : List ResolvedVariable) :
    ∀ as cs, buildChannels lang outputs vars as = .ok cs →
      ∀ c ∈ cs, ∃ a ∈ as, buildChannelForAction lang outputs vars a = .ok c := by
  intro as
  induction as with
  | nil =>
    intro cs h c hc
    simp only [buildChannels, Except.ok.injEq] at h
    subst h
    simp at hc
  | cons a rest ih =>
    intro cs h c hc
    simp only [buildChannels] at h
    split at h
    · exact absurd h (by simp)
    · rename_i c0 hc0
      split at h
      · exact absurd h (by simp)
      · rename_i cs0 hcs0
        simp only [Except.ok.injEq] at h
        subst h
        rcases List.mem_cons.mp hc with hc | hc
        · subst hc
          exact ⟨a, List.mem_cons_self a rest, hc0⟩
        · obtain ⟨a2, ha2, hb2⟩ := ih cs0 hcs0 c hc
          exact ⟨a2, List.mem_cons_of_mem a ha2, hb2⟩

/-- Decomposition of a successful single-probe compilation. -/
theorem compileProbe_ok (tbl : SymbolTable) (binPath : String) (lang : Language)
    (outputs : List Output) (p : LogicalProbe)
    (specs : List PhysicalProbeSpec) (chans : List EventChannelSpec)
    (h : compileProbe tbl binPath lang outputs p = .ok (specs, chans)) :
    specs = probeSpecsFor binPath p ∧
    ∃ layout vars,
      tbl.lookup p.tracepoint.symbol = some layout ∧
      resolveProbeVars layout p = .ok vars ∧
      buildChannels lang outputs vars p.output_actions = .ok chans := by
  unfold compileProbe at h
  split at h
  · exact absurd h (by simp)
  · rename_i layout hlookup
    split at h
    · exact absurd h (by simp)
    · rename_i vars hvars
      split at h
      · exact absurd h (by simp)
      · rename_i cs hcs
        simp only [Except.ok.injEq, Prod.mk.injEq] at h
        obtain ⟨hspecs, hchans⟩ := h
        subst hchans
        exact ⟨hspecs.symm, layout, vars, hlookup, hvars, hcs⟩

/-- Every physical probe realized from a logical probe carries the probe's
binary path and symbol and a probe-function identifier generated from its own
attach point and that symbol. -/
theorem probeSpecsFor_mem (binPath : String) (p : LogicalProbe)
    (s : PhysicalProbeSpec) (hs : s ∈ probeSpecsFor binPath p) :
    s.binary_path = binPath ∧ s.symbol = p.tracepoint.symbol ∧
    s.probe_fn_id = probeFnName s.attach_point p.tracepoint.symbol := by
  unfold probeSpecsFor at hs
  split at hs
  · rcases List.mem_cons.mp hs with hs | hs
    · subst hs; exact ⟨rfl, rfl, rfl⟩
    · simp only [List.mem_singleton] at hs
      subst hs; exact ⟨rfl, rfl, rfl⟩
  · simp only [List.mem_singleton] at hs
    subst hs; exact ⟨rfl, rfl, rfl⟩

/-- Provenance through a probe list: every emitted probe spec comes from one
of the logical probes, and every emitted channel from one probe's actions. -/
theorem compileProbes_ok (tbl : SymbolTable) (binPath : String) (lang : Language)
    (outputs : List Output) :
    ∀ ps specs chans, compileProbes tbl binPath lang outputs ps = .ok (specs, chans) →
      (∀ s ∈ specs, ∃ p ∈ ps, s ∈ probeSpecsFor binPath p) ∧
      (∀ c ∈ chans, ∃ tail, c.fields = implicitFields lang ++ tail) := by
  intro ps
  induction ps with
  | nil =>
    intro specs chans h
    simp only [compileProbes, Except.ok.injEq, Prod.mk.injEq] at h
    obtain ⟨h1, h2⟩ := h
    subst h1; subst h2
    exact ⟨by simp, by simp⟩
  | cons p rest ih =>
    intro specs chans h
    simp only [compileProbes] at h
    cases hpr : compileProbe tbl binPath lang outputs p with
    | error e => rw [hpr] at h; simp at h
    | ok pr =>
      obtain ⟨specs0, chans0⟩ := pr
      rw [hpr] at h
      cases hpr2 : compileProbes tbl binPath lang outputs rest with
      | error e => rw [hpr2] at h; simp at h
      | ok pr2 =>
        obtain ⟨specs1, chans1⟩ := pr2
        rw [hpr2] at h
        simp only [Except.ok.injEq, Prod.mk.injEq] at h
        obtain ⟨h1, h2⟩ := h
        subst h1; subst h2
        obtain ⟨hsp0, hex⟩ := compileProbe_ok tbl binPath lang outputs p specs0 chans0 hpr
        obtain ⟨layout, vars, _, _, hchan0⟩ := hex
        obtain ⟨ihs, ihc⟩ := ih specs1 chans1 hpr2
        refine ⟨?_, ?_⟩
        · intro s hs
          rcases List.mem_append.mp hs with hs | hs
          · exact ⟨p, List.mem_cons_self p rest, hsp0 ▸ hs⟩
          · obtain ⟨p2, hp2, hsp2⟩ := ihs s hs
            exact ⟨p2, List.mem_cons_of_mem p hp2, hsp2⟩
        · intro c hc
          rcases List.mem_append.mp hc with hc | hc
          · obtain ⟨a, _, hb⟩ := buildChannels_mem lang outputs vars
              p.output_actions chans0 hchan0 c hc
            obtain ⟨out, pairs, _, _, _, hfields⟩ :=
              buildChannelForAction_ok lang outputs vars a c hb
            exact ⟨pairs.map (fun q => Field.mk q.1 q.2), hfields⟩
          · exact ihc c hc

/-- Provenance through the program list: every emitted probe spec comes from
one program's probe, and every channel starts with the implicit context
fields of the language of the program that declared it. -/
theorem compilePrograms_ok (tbl : SymbolTable) (binPath : String) :
    ∀ progs specs chans, compilePrograms tbl binPath progs = .ok (specs, chans) →
      (∀ s ∈ specs, ∃ prog ∈ progs, ∃ p ∈ prog.probes, s ∈ probeSpecsFor binPath p) ∧
      (∀ c ∈ chans, ∃ prog ∈ progs, ∃ tail,
        c.fields = implicitFields prog.language ++ tail) := by
  intro progs
  induction progs with
  | nil =>
    intro specs chans h
    simp only [compilePrograms, Except.ok.injEq, Prod.mk.injEq] at h
    obtain ⟨h1, h2⟩ := h
    subst h1; subst h2
    exact ⟨by simp, by simp⟩
  | cons prog rest ih =>
    intro specs chans h
    simp only [compilePrograms] at h
    cases hpr : compileOneProgram tbl binPath prog with
    | error e => rw [hpr] at h; simp at h
    | ok pr =>
      obtain ⟨specs0, chans0⟩ := pr
      rw [hpr] at h
      cases hpr2 : compilePrograms tbl binPath rest with
      | error e => rw [hpr2] at h; simp at h
      | ok pr2 =>
        obtain ⟨specs1, chans1⟩ := pr2
        rw [hpr2] at h
        simp only [Except.ok.injEq, Prod.mk.injEq] at h
        obtain ⟨h1, h2⟩ := h
        subst h1; subst h2
        obtain ⟨ihs0, ihc0⟩ := compileProbes_ok tbl binPath prog.language
          prog.outputs prog.probes specs0 chans0 hpr
        obtain ⟨ihs, ihc⟩ := ih specs1 chans1 hpr2
        refine ⟨?_, ?_⟩
        · intro s hs
          rcases List.mem_append.mp hs with hs | hs
          · obtain ⟨p, hp, hsp⟩ := ihs0 s hs
            exact ⟨prog, List.mem_cons_self prog rest, p, hp, hsp⟩
          · obtain ⟨prog2, hprog2, hrest⟩ := ihs s hs
            exact ⟨prog2, List.mem_cons_of_mem prog hprog2, hrest⟩
        · intro c hc
          rcases List.mem_append.mp hc with hc | hc
          · obtain ⟨tail, htail⟩ := ihc0 c hc
            exact ⟨prog, List.mem_cons_self prog rest, tail, htail⟩
          · obtain ⟨prog2, hprog2, hrest⟩ := ihc c hc
            exact ⟨prog2, List.mem_cons_of_mem prog hprog2, hrest⟩

/-- Decomposition of a successful whole-deployment compilation: the probe
specs are the auxiliary set (for managed deployments) followed by the
per-probe specs, and the channels are those of the programs. -/
theorem CompileProgram_ok (tbl : SymbolTable) (d : LogicalTracepointDeployment)
    (bcc : BCCProgram) (h : CompileProgram tbl d = .ok bcc) :
    ∃ specs chans,
      compilePrograms tbl d.binary_path d.programs = .ok (specs, chans) ∧
      bcc.probe_specs =
        (if isManaged d then goAuxProbes d.binary_path else []) ++ specs ∧
      bcc.channel_specs = chans := by
  unfold CompileProgram at h
  cases hpr : compilePrograms tbl d.binary_path d.programs with
  | error e => rw [hpr] at h; simp at h
  | ok pr =>
    obtain ⟨specs, chans⟩ := pr
    rw [hpr] at h
    simp only [Except.ok.injEq] at h
    subst h
    exact ⟨specs, chans, rfl, rfl, rfl⟩

/-- C10: the transport record constants HEADER_FIELD_STR_SIZE (128) and
MAX_DATA_SIZE (16384) are powers of two, so the compile-time mask assertions
of go_grpc_types.h hold. -/
theorem claim_C10_power_of_two_constants :
    HEADER_FIELD_STR_SIZE = 128 ∧ MAX_DATA_SIZE = 16384 ∧
    HEADER_FIELD_STR_SIZE = 2 ^ 7 ∧ MAX_DATA_SIZE = 2 ^ 14 ∧
    HEADER_FIELD_STR_SIZE &&& (HEADER_FIELD_STR_SIZE - 1) = 0 ∧
    MAX_DATA_SIZE &&& (MAX_DATA_SIZE - 1) = 0 := by
  refine ⟨rfl, rfl, rfl, rfl, ?_, ?_⟩ <;> decide

/-- C1: compiling the fixture deployment (one managed-runtime program, one
probe on main.MixedArgTypes with three argument bindings, one return binding,
one latency binding, and one output action listing all five variables)
produces exactly 4 probe specs — 1 entry and 1 return for the target symbol
plus the 2 fixed auxiliary context probes — and exactly 1 channel spec whose
9 fields are, in order: process id, process-start time, capture time,
logical-thread id, the three arguments, the return value, and latency. -/
theorem claim_C1_concrete_scenario :
    (CompileProgram dummySymbolTable testDeployment).map
        (fun b => b.probe_specs.length) = .ok 4 ∧
    (CompileProgram dummySymbolTable testDeployment).map
        (fun b => b.probe_specs.map (fun s => (s.symbol, s.attach_point))) =
      .ok [("runtime.casgstatus", .ENTRY), ("runtime.newproc1", .ENTRY),
           ("main.MixedArgTypes", .ENTRY), ("main.MixedArgTypes", .RETURN)] ∧
    (CompileProgram dummySymbolTable testDeployment).map
        (fun b => b.channel_specs.map
          (fun c => (c.name, c.fields.map (fun f => (f.name, f.type))))) =
      .ok [("probe_output",
            [("tgid_", .INT32), ("tgid_start_time_", .UINT64),
             ("time_", .UINT64), ("goid_", .INT64), ("f1", .INT),
             ("f2", .INT), ("f3", .INT), ("f4", .INT),
             ("latency", .INT64)])] :=
  ⟨rfl, rfl, rfl⟩

/-- C6: compilation is deterministic — compiling equal deployment values
yields identical BCCProgram output. The embedded compiler is a pure function
of the symbol table and the deployment, so equal inputs give equal outputs. -/
theorem claim_C6_deterministic (tbl : SymbolTable)
    (d1 d2 : LogicalTracepointDeployment) (h : d1 = d2) :
    CompileProgram tbl d1 = CompileProgram tbl d2 := by
  rw [h]

/-- Witness for C6 at two syntactically distinct but equal deployments. -/
theorem claim_C6_deterministic_witness :
    CompileProgram dummySymbolTable testDeployment =
      CompileProgram dummySymbolTable
        ⟨"dummy_go_binary",
         [⟨.MANAGED_RUNTIME, [⟨"probe_output", ["f1", "f2", "f3", "f4", "latency"]⟩],
           [probe0]⟩]⟩ :=
  claim_C6_deterministic dummySymbolTable testDeployment
    ⟨"dummy_go_binary",
     [⟨.MANAGED_RUNTIME, [⟨"probe_output", ["f1", "f2", "f3", "f4", "latency"]⟩],
       [probe0]⟩]⟩ (by rfl)

/-- C2: a successfully compiled logical probe yields exactly one entry-attach
physical spec, plus exactly one return-attach spec precisely when the probe
has a return-value or latency binding; every emitted spec carries the probe's
binary path and symbol, and its probe-function identifier is generated from
its own attach point and that shared symbol (the shared base identifier). -/
theorem claim_C2_probe_expansion (tbl : SymbolTable) (binPath : String)
    (lang : Language) (outputs : List Output) (p : LogicalProbe)
    (specs : List PhysicalProbeSpec) (chans : List EventChannelSpec)
    (hok : compileProbe tbl binPath lang outputs p = .ok (specs, chans)) :
    (specs.filter (fun s => s.attach_point == .ENTRY)).length = 1 ∧
    (specs.filter (fun s => s.attach_point == .RETURN)).length =
      (if p.ret_bindings = [] ∧ p.latency_binding = none then 0 else 1) ∧
    ∀ s ∈ specs, s.binary_path = binPath ∧ s.symbol = p.tracepoint.symbol ∧
      s.probe_fn_id = probeFnName s.attach_point p.tracepoint.symbol := by
  obtain ⟨hspecs, -⟩ := compileProbe_ok tbl binPath lang outputs p specs chans hok
  subst hspecs
  refine ⟨?_, ?_, fun s hs => probeSpecsFor_mem binPath p s hs⟩
  · obtain ⟨nm, tp, ab, rb, lb, oa⟩ := p
    cases rb <;> cases lb <;>
      simp [probeSpecsFor, needsReturnProbe, List.filter] <;> rfl
  · obtain ⟨nm, tp, ab, rb, lb, oa⟩ := p
    cases rb <;> cases lb <;>
      simp [probeSpecsFor, needsReturnProbe, List.filter] <;> rfl

/-- Witness for C2 at the fixture probe, whose compilation is evaluated
concretely. -/
theorem claim_C2_probe_expansion_witness :
    (probe0Specs.filter (fun s => s.attach_point == .ENTRY)).length = 1 ∧
    (probe0Specs.filter (fun s => s.attach_point == .RETURN)).length =
      (if probe0.ret_bindings = [] ∧ probe0.latency_binding = none then 0 else 1) ∧
    ∀ s ∈ probe0Specs, s.binary_path = "dummy_go_binary" ∧
      s.symbol = probe0.tracepoint.symbol ∧
      s.probe_fn_id = probeFnName s.attach_point probe0.tracepoint.symbol :=
  claim_C2_probe_expansion dummySymbolTable "dummy_go_binary" .MANAGED_RUNTIME
    [probeOutputDecl] probe0 probe0Specs [probe0Channel] (by rfl)

/-- C3: in any successfully compiled deployment with a managed-runtime
program, each member of the fixed auxiliary context-tracking probe set
(headed by the entry probe at runtime.casgstatus) occurs exactly once in the
assembled probe list, however many logical probes the deployment declares
(the hypothesis only excludes logical probes aimed directly at the
runtime-internal auxiliary symbols themselves). -/
theorem claim_C3_aux_probes_once (tbl : SymbolTable)
    (d : LogicalTracepointDeployment) (bcc : BCCProgram)
    (hok : CompileProgram tbl d = .ok bcc)
    (hm : isManaged d = true)
    (hns : ∀ prog ∈ d.programs, ∀ p ∈ prog.probes,
      p.tracepoint.symbol ≠ "runtime.casgstatus" ∧
      p.tracepoint.symbol ≠ "runtime.newproc1") :
    ∀ s ∈ goAuxProbes d.binary_path, bcc.probe_specs.count s = 1 := by
  obtain ⟨specs, chans, hcp, hps, -⟩ := CompileProgram_ok tbl d bcc hok
  rw [hm] at hps
  simp only [if_true] at hps
  obtain ⟨hsprov, -⟩ := compilePrograms_ok tbl d.binary_path d.programs specs chans hcp
  intro s hs
  have hzero : specs.count s = 0 := by
    rw [List.count_eq_zero]
    intro hmem
    obtain ⟨prog, hprog, p, hp, hsp⟩ := hsprov s hmem
    obtain ⟨-, hsym, -⟩ := probeSpecsFor_mem d.binary_path p s hsp
    obtain ⟨hc1, hc2⟩ := hns prog hprog p hp
    unfold goAuxProbes at hs
    rcases List.mem_cons.mp hs with hcase | hcase
    · rw [hcase] at hsym
      exact hc1 hsym.symm
    · simp only [List.mem_singleton] at hcase
      rw [hcase] at hsym
      exact hc2 hsym.symm
  rw [hps, List.count_append, hzero]
  have hne : (⟨d.binary_path, "runtime.casgstatus", .ENTRY,
        probeFnName .ENTRY "runtime.casgstatus"⟩ : PhysicalProbeSpec) ≠
      ⟨d.binary_path, "runtime.newproc1", .ENTRY,
        probeFnName .ENTRY "runtime.newproc1"⟩ := by
    intro h
    injection h with h1 h2 h3 h4
    exact absurd h2 (by decide)
  unfold goAuxProbes at hs ⊢
  rcases List.mem_cons.mp hs with hcase | hcase
  · subst hcase
    rw [List.count_cons_self, List.count_singleton]
    have : ¬((⟨d.binary_path, "runtime.newproc1", .ENTRY,
        probeFnName .ENTRY "runtime.newproc1"⟩ : PhysicalProbeSpec) ==
        ⟨d.binary_path, "runtime.casgstatus", .ENTRY,
          probeFnName .ENTRY "runtime.casgstatus"⟩) := by
      simp only [beq_iff_eq]
      exact fun h => hne h.symm
    simp [this]
  · simp only [List.mem_singleton] at hcase
    subst hcase
    rw [List.count_cons_of_ne (fun h => hne h.symm), List.count_singleton_self]

/-- Witness for C3 at the fixture deployment, instantiated at the
runtime.casgstatus auxiliary entry probe. -/
theorem claim_C3_aux_probes_once_witness :
    expectedBCC.probe_specs.count
      ⟨"dummy_go_binary", "runtime.casgstatus", .ENTRY,
        "probe_entry_runtime_casgstatus"⟩ = 1 :=
  claim_C3_aux_probes_once dummySymbolTable testDeployment expectedBCC
    (by rfl) (by rfl)
    (by
      intro prog hprog p hp
      simp only [testDeployment, List.mem_singleton] at hprog
      subst hprog
      simp only [testProgram, List.mem_singleton] at hp
      subst hp
      exact ⟨by decide, by decide⟩)
    ⟨"dummy_go_binary", "runtime.casgstatus", .ENTRY,
      "probe_entry_runtime_casgstatus"⟩
    (by decide)

/-- C4: in a successfully compiled deployment whose programs all target a
managed runtime, every event channel's first four fields are the fixed
implicit context fields — process id, process-start time, capture time, and
the logical-thread id — so the implicit leading fields are identical across all
channels of the compiled program, which differ only in their explicit
suffix. -/
theorem claim_C4_implicit_context_fields (tbl : SymbolTable)
    (d : LogicalTracepointDeployment) (bcc : BCCProgram)
    (hok : CompileProgram tbl d = .ok bcc)
    (hall : ∀ prog ∈ d.programs, prog.language = .MANAGED_RUNTIME) :
    ∀ ch ∈ bcc.channel_specs,
      ch.fields.take 4 = implicitFields .MANAGED_RUNTIME := by
  obtain ⟨specs, chans, hcp, -, hcs⟩ := CompileProgram_ok tbl d bcc hok
  obtain ⟨-, hcprov⟩ := compilePrograms_ok tbl d.binary_path d.programs specs chans hcp
  intro ch hch
  rw [hcs] at hch
  obtain ⟨prog, hprog, tail, htail⟩ := hcprov ch hch
  rw [htail, hall prog hprog]
  exact List.take_left' rfl

/-- Witness for C4 at the fixture deployment, instantiated at its single
channel. -/
theorem claim_C4_implicit_context_fields_witness :
    (⟨"probe_output", expectedChannelFields⟩ : EventChannelSpec).fields.take 4 =
      implicitFields .MANAGED_RUNTIME :=
  claim_C4_implicit_context_fields dummySymbolTable testDeployment expectedBCC
    (by rfl)
    (by
      intro prog hprog
      simp only [testDeployment, List.mem_singleton] at hprog
      subst hprog
      rfl)
    ⟨"probe_output", expectedChannelFields⟩
    (by decide)

/-- C7 counterexample: the claim says probe-function identifiers have the
form of the attach-point word, an underscore, and the mangled symbol; but the
compiled fixture's first probe spec — whose identifier the source test pins as
probe_entry_runtime_casgstatus — does not equal that form's value
entry_runtime_casgstatus, because the generated identifiers additionally
carry a fixed leading "probe_". -/
theorem claim_C7_counterexample :
    (CompileProgram dummySymbolTable testDeployment).map
        (fun b => b.probe_specs.map (fun s => s.probe_fn_id)) =
      .ok ["probe_entry_runtime_casgstatus", "probe_entry_runtime_newproc1",
           "probe_entry_main_MixedArgTypes", "probe_return_main_MixedArgTypes"] ∧
    "probe_entry_runtime_casgstatus" ≠
      attachWord .ENTRY ++ "_" ++ mangleSymbol "runtime.casgstatus" :=
  ⟨rfl, by decide⟩

/-- C7 (amended): probe-function identifiers are a deterministic function of
only the probe's attach point and symbol, of the form "probe_", then the
attach-point word (entry or return), an underscore, and the mangled symbol;
every probe spec of any successfully compiled deployment carries exactly that
identifier, so repeated compilations of the same spec produce the same
identifiers. -/
theorem claim_C7_amended_probe_fn_ids (tbl : SymbolTable)
    (d : LogicalTracepointDeployment) (bcc : BCCProgram)
    (hok : CompileProgram tbl d = .ok bcc) :
    ∀ s ∈ bcc.probe_specs,
      s.probe_fn_id =
        "probe_" ++ attachWord s.attach_point ++ "_" ++ mangleSymbol s.symbol := by
  obtain ⟨specs, chans, hcp, hps, -⟩ := CompileProgram_ok tbl d bcc hok
  obtain ⟨hsprov, -⟩ := compilePrograms_ok tbl d.binary_path d.programs specs chans hcp
  intro s hs
  rw [hps] at hs
  rcases List.mem_append.mp hs with hs | hs
  · cases hm : isManaged d with
    | false => rw [hm] at hs; simp at hs
    | true =>
      rw [hm] at hs
      simp only [if_true] at hs
      unfold goAuxProbes at hs
      rcases List.mem_cons.mp hs with hcase | hcase
      · subst hcase; rfl
      · simp only [List.mem_singleton] at hcase
        subst hcase; rfl
  · obtain ⟨prog, hprog, p, hp, hsp⟩ := hsprov s hs
    obtain ⟨-, hsym, hfn⟩ := probeSpecsFor_mem d.binary_path p s hsp
    rw [hfn, hsym]
    rfl

/-- Witness for the amended C7 at the fixture deployment, instantiated at the
return probe of the target symbol. -/
theorem claim_C7_amended_probe_fn_ids_witness :
    (⟨"dummy_go_binary", "main.MixedArgTypes", .RETURN,
        "probe_return_main_MixedArgTypes"⟩ : PhysicalProbeSpec).probe_fn_id =
      "probe_" ++
        attachWord
          (⟨"dummy_go_binary", "main.MixedArgTypes", .RETURN,
            "probe_return_main_MixedArgTypes"⟩ : PhysicalProbeSpec).attach_point ++
        "_" ++
        mangleSymbol
          (⟨"dummy_go_binary", "main.MixedArgTypes", .RETURN,
            "probe_return_main_MixedArgTypes"⟩ : PhysicalProbeSpec).symbol :=
  claim_C7_amended_probe_fn_ids dummySymbolTable testDeployment expectedBCC (by rfl)
    ⟨"dummy_go_binary", "main.MixedArgTypes", .RETURN,
      "probe_return_main_MixedArgTypes"⟩
    (by decide)

/-- C5 counterexample: the claim says a channel's explicit fields are named
by the output action's variable list; but in the compiled fixture the
explicit fields (after the 4 implicit ones) are named f1..f4 and latency —
the Output declaration's field names, which the source test pins — while the
output action's variable list is arg0, arg1, arg2, retval0, latency. -/
theorem claim_C5_counterexample :
    (CompileProgram dummySymbolTable testDeployment).map
        (fun b => b.channel_specs.map
          (fun c => (c.fields.drop 4).map (fun f => f.name))) =
      .ok [["f1", "f2", "f3", "f4", "latency"]] ∧
    probe0Action.variable_ids = ["arg0", "arg1", "arg2", "retval0", "latency"] ∧
    (["f1", "f2", "f3", "f4", "latency"] : List String) ≠
      ["arg0", "arg1", "arg2", "retval0", "latency"] :=
  ⟨rfl, rfl, by decide⟩

/-- C5 (amended): after the implicit context fields, a channel's explicit
fields take their names from the referenced Output's declared field names,
paired positionally with the output action's variable list in declaration
order, and each carries the scalar type recorded on the resolved variable
named by the corresponding variable id. -/
theorem claim_C5_amended_explicit_fields (lang : Language)
    (outputs : List Output) (vars : List ResolvedVariable) (a : OutputAction)
    (out : Output) (ch : EventChannelSpec)
    (hfind : outputs.find? (fun o => o.name == a.output_name) = some out)
    (hok : buildChannelForAction lang outputs vars a = .ok ch) :
    ch.fields.length =
      (implicitFields lang).length + (out.field_names.zip a.variable_ids).length ∧
    ∀ i fn vid, (out.field_names.zip a.variable_ids).get? i = some (fn, vid) →
      ∃ v, vars.find? (fun w => w.id == vid) = some v ∧
        ch.fields.get? ((implicitFields lang).length + i) = some ⟨fn, v.type⟩ := by
  obtain ⟨out2, pairs, hfind2, hpairs, -, hfields⟩ :=
    buildChannelForAction_ok lang outputs vars a ch hok
  rw [hfind] at hfind2
  injection hfind2 with hout
  subst hout
  obtain ⟨hlen, hpt⟩ :=
    resolveFieldTypes_ok vars (out.field_names.zip a.variable_ids) pairs hpairs
  refine ⟨?_, ?_⟩
  · rw [hfields]
    simp [hlen]
  · intro i fn vid hget
    obtain ⟨v, hv, hr⟩ := hpt i fn vid hget
    refine ⟨v, hv, ?_⟩
    rw [hfields, List.get?_append_right (Nat.le_add_right _ _),
      Nat.add_sub_cancel_left, List.get?_map, hr]
    rfl

/-- Witness for the amended C5 at the fixture's output action. -/
theorem claim_C5_amended_explicit_fields_witness :
    probe0Channel.fields.length =
      (implicitFields .MANAGED_RUNTIME).length +
        (probeOutputDecl.field_names.zip probe0Action.variable_ids).length ∧
    ∀ i fn vid,
      (probeOutputDecl.field_names.zip probe0Action.variable_ids).get? i =
        some (fn, vid) →
      ∃ v, probe0Vars.find? (fun w => w.id == vid) = some v ∧
        probe0Channel.fields.get?
          ((implicitFields .MANAGED_RUNTIME).length + i) = some ⟨fn, v.type⟩ :=
  claim_C5_amended_explicit_fields .MANAGED_RUNTIME [probeOutputDecl]
    probe0Vars probe0Action probeOutputDecl probe0Channel (by rfl) (by rfl)

/-- Error propagation: in a deployment holding a single program with a single
probe, an error compiling that probe fails the whole compilation with the
same error (the compiler returns the first error encountered). -/
theorem CompileProgram_single_probe_error (tbl : SymbolTable)
    (d : LogicalTracepointDeployment) (prog : LogicalProgram) (p : LogicalProbe)
    (e : CompileError)
    (hprogs : d.programs = [prog]) (hprobes : prog.probes = [p])
    (hpe : compileProbe tbl d.binary_path prog.language prog.outputs p = .error e) :
    CompileProgram tbl d = .error e := by
  unfold CompileProgram
  rw [hprogs]
  simp only [compilePrograms, compileOneProgram, hprobes, compileProbes, hpe]

/-- C8: evaluating the reserved return-value placeholder in entry-probe
context — here, as the first argument binding of the only probe — fails the
whole compilation with InvalidContextError; the same expression resolves in
exit-probe context whenever the layout holds the referenced return slot. -/
theorem claim_C8_ret_placeholder_context (tbl : SymbolTable)
    (d : LogicalTracepointDeployment) (prog : LogicalProgram) (p : LogicalProbe)
    (b : Binding) (rest : List Binding) (layout : SymbolLayout) (n : Nat)
    (hprogs : d.programs = [prog]) (hprobes : prog.probes = [p])
    (hargs : p.arg_bindings = b :: rest)
    (hexpr : parseExpr b.expr = .retSlot n)
    (hlookup : tbl.lookup p.tracepoint.symbol = some layout) :
    CompileProgram tbl d = .error .InvalidContextError ∧
    ∀ t, layout.rets.lookup n = some t →
      evalExpr b.id layout .exitPhase b.expr = .ok ⟨b.id, .retKind, t⟩ := by
  have he : evalExpr b.id layout .entryPhase b.expr = .error .InvalidContextError := by
    unfold evalExpr
    rw [hexpr]
  have hres : resolveProbeVars layout p = .error .InvalidContextError := by
    unfold resolveProbeVars
    rw [hargs]
    simp only [evalBindings, he]
  have hpe : compileProbe tbl d.binary_path prog.language prog.outputs p =
      .error .InvalidContextError := by
    unfold compileProbe
    rw [hlookup]
    simp only [hres]
  refine ⟨CompileProgram_single_probe_error tbl d prog p _ hprogs hprobes hpe, ?_⟩
  intro t ht
  unfold evalExpr
  rw [hexpr]
  simp only [ht]

/-- Witness for C8 at a probe binding the return-slot placeholder at entry. -/
theorem claim_C8_ret_placeholder_context_witness :
    CompileProgram dummySymbolTable entryRetDeployment =
      .error .InvalidContextError ∧
    ∀ t, mixedArgTypesLayout.rets.lookup 6 = some t →
      evalExpr "a0" mixedArgTypesLayout .exitPhase "$6" =
        .ok ⟨"a0", .retKind, t⟩ :=
  claim_C8_ret_placeholder_context dummySymbolTable entryRetDeployment
    entryRetProgram entryRetProbe ⟨"a0", "$6"⟩ [] mixedArgTypesLayout 6
    rfl rfl rfl (by rfl) (by rfl)

/-- C9: in a deployment holding a single program with a single probe and a
single output action, referencing an output name that no Output declares
fails the whole compilation with UndeclaredOutputError; and an explicit field
name colliding with a field already present in the channel (implicit or
explicit) fails it with DuplicateFieldError. -/
theorem claim_C9_output_errors (tbl : SymbolTable)
    (d : LogicalTracepointDeployment) (prog : LogicalProgram) (p : LogicalProbe)
    (a : OutputAction) (layout : SymbolLayout) (vars : List ResolvedVariable)
    (hprogs : d.programs = [prog]) (hprobes : prog.probes = [p])
    (hacts : p.output_actions = [a])
    (hlookup : tbl.lookup p.tracepoint.symbol = some layout)
    (hvars : resolveProbeVars layout p = .ok vars) :
    (prog.outputs.find? (fun o => o.name == a.output_name) = none →
      CompileProgram tbl d = .error .UndeclaredOutputError) ∧
    (∀ out pairs,
      prog.outputs.find? (fun o => o.name == a.output_name) = some out →
      resolveFieldTypes vars (out.field_names.zip a.variable_ids) = .ok pairs →
      hasFieldCollision (implicitFields prog.language) pairs = true →
      CompileProgram tbl d = .error .DuplicateFieldError) := by
  constructor
  · intro hfind
    have hbca : buildChannelForAction prog.language prog.outputs vars a =
        .error .UndeclaredOutputError := by
      unfold buildChannelForAction
      rw [hfind]
    have hpe : compileProbe tbl d.binary_path prog.language prog.outputs p =
        .error .UndeclaredOutputError := by
      unfold compileProbe
      rw [hlookup]
      simp only [hvars, hacts, buildChannels, hbca]
    exact CompileProgram_single_probe_error tbl d prog p _ hprogs hprobes hpe
  · intro out pairs hfind hpairs hcol
    have happ := hasFieldCollision_error pairs (implicitFields prog.language) hcol
    have hbca : buildChannelForAction prog.language prog.outputs vars a =
        .error .DuplicateFieldError := by
      unfold buildChannelForAction
      simp only [hfind, hpairs, happ]
    have hpe : compileProbe tbl d.binary_path prog.language prog.outputs p =
        .error .DuplicateFieldError := by
      unfold compileProbe
      rw [hlookup]
      simp only [hvars, hacts, buildChannels, hbca]
    exact CompileProgram_single_probe_error tbl d prog p _ hprogs hprobes hpe

/-- Witness for C9: one deployment whose action references the undeclared
output name nope, and one whose declared field name tgid_ collides with an
implicit context field. -/
theorem claim_C9_output_errors_witness :
    CompileProgram dummySymbolTable undeclaredDeployment =
      .error .UndeclaredOutputError ∧
    CompileProgram dummySymbolTable duplicateDeployment =
      .error .DuplicateFieldError :=
  ⟨(claim_C9_output_errors dummySymbolTable undeclaredDeployment
      undeclaredProgram undeclaredProbe ⟨"nope", []⟩ mixedArgTypesLayout []
      rfl rfl rfl (by rfl) (by rfl)).1 (by rfl),
   (claim_C9_output_errors dummySymbolTable duplicateDeployment
      duplicateProgram duplicateProbe ⟨"dup_output", ["arg0"]⟩
      mixedArgTypesLayout [⟨"arg0", .argKind, .INT⟩]
      rfl rfl rfl (by rfl) (by rfl)).2 duplicateOutputDecl
      [("tgid_", .INT)] (by rfl) (by rfl) (by rfl)⟩

end DynamicTracing
